import Mathlib

/-!
# Verification of the deno-cgi response transcoder

Shallow embedding of the deno-cgi source (`cgi.ts` core and `utils.ts`
helpers) and proofs about its behaviour.  Bytes are modelled as `Nat`
(always < 256 in practice; no arithmetic overflows occur), byte buffers as
`List Nat`, JS strings as Lean `String`/`List Char` (the code only ever
inspects ASCII characters), JS `Map`/plain objects as insertion-ordered
association lists, and the fetch `Headers` object as an association list
keyed by the lower-cased header name (fetch header names are
case-insensitive; `Headers.set` replaces).
-/

namespace DenoCgi

/-! ## Association list model of JS `Map` / plain objects

`mapSet` models both `Map.prototype.set` and `obj[k] = v`: an existing key
is updated in place (keeping its position), a new key is appended. -/

def mapGet : List (String × String) → String → Option String
  | [], _ => none
  | (k, v) :: rest, key => if k = key then some v else mapGet rest key

def mapSet : List (String × String) → String → String → List (String × String)
  | [], key, val => [(key, val)]
  | (k, v) :: rest, key, val =>
    if k = key then (key, val) :: rest else (k, v) :: mapSet rest key val

def mapKeys (m : List (String × String)) : List String := m.map Prod.fst

theorem mapKeys_nil : mapKeys [] = [] := rfl

theorem mapKeys_cons (a b : String) (l : List (String × String)) :
    mapKeys ((a, b) :: l) = a :: mapKeys l := rfl

theorem mapGet_mapSet (m : List (String × String)) (k v k') :
    mapGet (mapSet m k v) k' = if k = k' then some v else mapGet m k' := by
  induction m with
  | nil => simp [mapSet, mapGet]
  | cons hd tl ih =>
    obtain ⟨k0, v0⟩ := hd
    by_cases h0 : k0 = k
    · subst h0
      by_cases h1 : k0 = k'
      · subst h1; simp [mapSet, mapGet]
      · simp [mapSet, mapGet, h1]
    · by_cases h1 : k0 = k'
      · subst h1
        simp [mapSet, mapGet, h0, Ne.symm h0]
      · simp [mapSet, mapGet, h0, h1, ih]

theorem mapGet_append (m₁ m₂ : List (String × String)) (k) :
    mapGet (m₁ ++ m₂) k =
      match mapGet m₁ k with
      | some v => some v
      | none => mapGet m₂ k := by
  induction m₁ with
  | nil => simp [mapGet]
  | cons hd tl ih =>
    obtain ⟨k0, v0⟩ := hd
    by_cases h : k0 = k <;> simp [mapGet, h, ih]

theorem mapGet_eq_none_iff (m : List (String × String)) (k) :
    mapGet m k = none ↔ k ∉ mapKeys m := by
  induction m with
  | nil => simp [mapGet, mapKeys]
  | cons hd tl ih =>
    obtain ⟨k0, v0⟩ := hd
    by_cases h : k0 = k
    · subst h; simp [mapGet, mapKeys_cons]
    · simp [mapGet, mapKeys_cons, h, Ne.symm h, ih]

theorem mapGet_isSome_iff (m : List (String × String)) (k) :
    (mapGet m k).isSome = true ↔ k ∈ mapKeys m := by
  rw [Option.isSome_iff_ne_none, ne_eq, mapGet_eq_none_iff, not_not]

theorem mapKeys_mapSet (m : List (String × String)) (k v) :
    mapKeys (mapSet m k v) = if k ∈ mapKeys m then mapKeys m else mapKeys m ++ [k] := by
  induction m with
  | nil => simp [mapSet, mapKeys]
  | cons hd tl ih =>
    obtain ⟨k0, v0⟩ := hd
    by_cases h : k0 = k
    · subst h; simp [mapSet, mapKeys_cons]
    · by_cases h2 : k ∈ mapKeys tl <;>
        simp [mapSet, mapKeys_cons, h, Ne.symm h, h2, ih]

theorem nodup_mapKeys_mapSet (m : List (String × String)) (k v)
    (h : (mapKeys m).Nodup) : (mapKeys (mapSet m k v)).Nodup := by
  rw [mapKeys_mapSet]
  by_cases hm : k ∈ mapKeys m
  · simpa [hm]
  · simpa [hm, List.nodup_append] using h

theorem mapGet_reverse_of_nodup (m : List (String × String)) (k)
    (h : (mapKeys m).Nodup) : mapGet m.reverse k = mapGet m k := by
  induction m with
  | nil => rfl
  | cons hd tl ih =>
    obtain ⟨k0, v0⟩ := hd
    rw [mapKeys_cons, List.nodup_cons] at h
    rw [List.reverse_cons, mapGet_append, ih h.2]
    by_cases hk : k0 = k
    · subst hk
      have h0 : mapGet tl k0 = none := (mapGet_eq_none_iff tl k0).2 h.1
      simp [h0, mapGet]
    · cases hmg : mapGet tl k <;> simp [mapGet, hk, hmg]

/-- Folding `mapSet` over a list of entries (this is how a JS object literal
built with spreads assigns its properties, in order). -/
def objFromEntries (entries : List (String × String)) : List (String × String) :=
  entries.foldl (fun m kv => mapSet m kv.1 kv.2) []

theorem foldl_mapSet_get (l : List (String × String)) (m : List (String × String)) (k) :
    mapGet (l.foldl (fun m kv => mapSet m kv.1 kv.2) m) k =
      match mapGet l.reverse k with
      | some v => some v
      | none => mapGet m k := by
  induction l generalizing m with
  | nil => simp [mapGet]
  | cons hd tl ih =>
    obtain ⟨k0, v0⟩ := hd
    rw [List.foldl_cons, ih, List.reverse_cons, mapGet_append]
    by_cases h : mapGet tl.reverse k = none
    · rw [h]
      by_cases hk : k0 = k <;> simp [mapGet, hk, mapGet_mapSet]
    · obtain ⟨v, hv⟩ := Option.ne_none_iff_exists'.1 h
      rw [hv]

theorem objFromEntries_get (entries : List (String × String)) (k) :
    mapGet (objFromEntries entries) k = mapGet entries.reverse k := by
  rw [objFromEntries, foldl_mapSet_get]
  cases h : mapGet entries.reverse k <;> simp [mapGet]

/-! ## `utils.ts` : `startsWithU8` -/

/-- Source `startsWithU8(haystack, needle)`: false when the needle is longer
than the haystack, otherwise element-wise comparison of the first
`needle.length` bytes. -/
def startsWithU8 : List Nat → List Nat → Bool
  | _, [] => true
  | [], _ :: _ => false
  | h :: hs, n :: ns => if h = n then startsWithU8 hs ns else false

theorem startsWithU8_nil_right (hay : List Nat) : startsWithU8 hay [] = true := by
  cases hay <;> rfl

theorem startsWithU8_nil_left (n : Nat) (ns : List Nat) :
    startsWithU8 [] (n :: ns) = false := rfl

/-! ## Byte-stream scanner: `findHeaderBodySeparator` -/

/-- Models the two literal scanning loops of `findHeaderBodySeparator`
(`for (let i = 0; ...; i++) if (bytes[i] === ...)`): the first window
position where `pat` occurs, expressed as the offset *after* the match
(the source returns `i + 4` resp. `i + 2`).  A window that would run past
the end of the buffer cannot match, exactly as in the source loops. -/
def scanForPat (pat : List Nat) : List Nat → Option Nat
  | [] => none
  | b :: rest =>
    if startsWithU8 (b :: rest) pat then some pat.length
    else (scanForPat pat rest).map (fun r => r + 1)

theorem scanForPat_none_iff (pat : List Nat) (hp : pat ≠ []) (bytes : List Nat) :
    scanForPat pat bytes = none ↔
      ∀ j, startsWithU8 (List.drop j bytes) pat = false := by
  induction bytes with
  | nil =>
    obtain ⟨p, ps, rfl⟩ : ∃ p ps, pat = p :: ps := by
      cases pat with
      | nil => exact absurd rfl hp
      | cons p ps => exact ⟨p, ps, rfl⟩
    simp [scanForPat, startsWithU8]
  | cons b rest ih =>
    by_cases h : startsWithU8 (b :: rest) pat = true
    · simp only [scanForPat, h, if_true]
      constructor
      · intro hfalse; exact absurd hfalse (by simp)
      · intro hall
        have := hall 0
        rw [List.drop_zero] at this
        rw [h] at this
        exact absurd this (by simp)
    · rw [Bool.not_eq_true] at h
      simp only [scanForPat, h, Bool.false_eq_true, if_false, Option.map_eq_none']
      rw [ih]
      constructor
      · intro hall j
        cases j with
        | zero => simpa using h
        | succ j' => rw [List.drop_succ_cons]; exact hall j'
      · intro hall j
        have := hall (j + 1)
        rwa [List.drop_succ_cons] at this

theorem scanForPat_some_iff (pat : List Nat) (hp : pat ≠ []) (bytes : List Nat) (r : Nat) :
    scanForPat pat bytes = some r ↔
      ∃ i, r = i + pat.length ∧ startsWithU8 (List.drop i bytes) pat = true ∧
        ∀ j, j < i → startsWithU8 (List.drop j bytes) pat = false := by
  induction bytes generalizing r with
  | nil =>
    obtain ⟨p, ps, rfl⟩ : ∃ p ps, pat = p :: ps := by
      cases pat with
      | nil => exact absurd rfl hp
      | cons p ps => exact ⟨p, ps, rfl⟩
    simp [scanForPat, startsWithU8]
  | cons b rest ih =>
    by_cases h : startsWithU8 (b :: rest) pat = true
    · simp only [scanForPat, h, if_true, Option.some_inj]
      constructor
      · rintro rfl
        exact ⟨0, by omega, by simpa using h, by omega⟩
      · rintro ⟨i, rfl, _, hbefore⟩
        cases i with
        | zero => omega
        | succ i' =>
          have hb := hbefore 0 (Nat.succ_pos i')
          rw [List.drop_zero, h] at hb
          exact absurd hb (by simp)
    · rw [Bool.not_eq_true] at h
      simp only [scanForPat, h, Bool.false_eq_true, if_false, Option.map_eq_some']
      constructor
      · rintro ⟨r', hr', rfl⟩
        obtain ⟨i, rfl, hat, hbefore⟩ := (ih r').1 hr'
        refine ⟨i + 1, by omega, by rwa [List.drop_succ_cons], ?_⟩
        intro j hj
        cases j with
        | zero => simpa using h
        | succ j' =>
          rw [List.drop_succ_cons]
          exact hbefore j' (by omega)
      · rintro ⟨i, rfl, hat, hbefore⟩
        cases i with
        | zero =>
          rw [List.drop_zero, h] at hat
          exact absurd hat (by simp)
        | succ i' =>
          refine ⟨i' + pat.length, (ih _).2 ⟨i', rfl, by rwa [List.drop_succ_cons] at hat, ?_⟩, by omega⟩
          intro j hj
          have hb := hbefore (j + 1) (by omega)
          rwa [List.drop_succ_cons] at hb

/-- `"HTTP/"` as bytes (source constant `httpProlog`). -/
def httpProlog : List Nat := [72, 84, 84, 80, 47]

/-- The CRLFCRLF terminator scanned for by the first loop. -/
def crlfCrlf : List Nat := [13, 10, 13, 10]

/-- The LFLF terminator scanned for by the second loop. -/
def lfLf : List Nat := [10, 10]

/-- Source `findHeaderBodySeparator`: `-1` = not enough data, `-2` = bad
prologue, `-3` = no boundary, otherwise the offset just past the first
CRLFCRLF (preferred) or LFLF terminator. -/
def findHeaderBodySeparator (bytes : List Nat) : Int :=
  if bytes.length < httpProlog.length then -1
  else if startsWithU8 bytes httpProlog = false then -2
  else
    match scanForPat crlfCrlf bytes with
    | some j => (j : Int)
    | none =>
      match scanForPat lfLf bytes with
      | some j => (j : Int)
      | none => -3

theorem scanForPat_result_pos (pat : List Nat) (hp : pat ≠ []) (bytes : List Nat) (r : Nat)
    (h : scanForPat pat bytes = some r) : 0 < r := by
  obtain ⟨i, rfl, -, -⟩ := (scanForPat_some_iff pat hp bytes r).1 h
  cases pat with
  | nil => exact absurd rfl hp
  | cons p ps => simp [List.length_cons]

/-- Beyond the end of the buffer a non-empty pattern never matches; lets a
finite check of all in-range offsets conclude the unbounded "no occurrence"
statement. -/
theorem no_occurrence_of_forall_lt (bytes pat : List Nat) (hp : pat ≠ [])
    (h : ∀ j, j < bytes.length → startsWithU8 (List.drop j bytes) pat = false) :
    ∀ j, startsWithU8 (List.drop j bytes) pat = false := by
  intro j
  by_cases hj : j < bytes.length
  · exact h j hj
  · rw [List.drop_eq_nil_of_le (by omega)]
    cases pat with
    | nil => exact absurd rfl hp
    | cons p ps => rfl

/-- C5: the Scanner signals NeedMoreData (`-1`) exactly on buffers shorter
than 5 bytes; BadPrologue (`-2`) exactly on buffers of at least 5 bytes not
beginning with `"HTTP/"`; otherwise it returns the offset just past the
first CRLFCRLF if one occurs, else the offset just past the first LFLF if
one occurs, else the distinct no-boundary outcome `-3`. -/
theorem scanner_outcomes (bytes : List Nat) :
    (findHeaderBodySeparator bytes = -1 ↔ bytes.length < 5)
    ∧ (findHeaderBodySeparator bytes = -2 ↔
        (5 ≤ bytes.length ∧ startsWithU8 bytes httpProlog = false))
    ∧ (∀ i, 5 ≤ bytes.length → startsWithU8 bytes httpProlog = true →
        startsWithU8 (List.drop i bytes) crlfCrlf = true →
        (∀ j, j < i → startsWithU8 (List.drop j bytes) crlfCrlf = false) →
        findHeaderBodySeparator bytes = (i : Int) + 4)
    ∧ (∀ i, 5 ≤ bytes.length → startsWithU8 bytes httpProlog = true →
        (∀ j, startsWithU8 (List.drop j bytes) crlfCrlf = false) →
        startsWithU8 (List.drop i bytes) lfLf = true →
        (∀ j, j < i → startsWithU8 (List.drop j bytes) lfLf = false) →
        findHeaderBodySeparator bytes = (i : Int) + 2)
    ∧ (5 ≤ bytes.length → startsWithU8 bytes httpProlog = true →
        (∀ j, startsWithU8 (List.drop j bytes) crlfCrlf = false) →
        (∀ j, startsWithU8 (List.drop j bytes) lfLf = false) →
        findHeaderBodySeparator bytes = -3) := by
  have hplen : httpProlog.length = 5 := rfl
  refine ⟨?_, ?_, ?_, ?_, ?_⟩
  · constructor
    · intro h
      by_contra hlen
      rw [findHeaderBodySeparator, hplen, if_neg hlen] at h
      by_cases hpro : startsWithU8 bytes httpProlog = false
      · rw [if_pos hpro] at h; omega
      · rw [if_neg hpro] at h
        cases h4 : scanForPat crlfCrlf bytes with
        | some j => simp only [h4] at h; omega
        | none =>
          cases h2 : scanForPat lfLf bytes with
          | some j => simp only [h4, h2] at h; omega
          | none => simp only [h4, h2] at h; omega
    · intro h
      rw [findHeaderBodySeparator, hplen, if_pos h]
  · constructor
    · intro h
      rw [findHeaderBodySeparator, hplen] at h
      by_cases hlen : bytes.length < 5
      · rw [if_pos hlen] at h; omega
      · rw [if_neg hlen] at h
        refine ⟨by omega, ?_⟩
        by_cases hpro : startsWithU8 bytes httpProlog = false
        · exact hpro
        · rw [if_neg hpro] at h
          exfalso
          cases h4 : scanForPat crlfCrlf bytes with
          | some j => simp only [h4] at h; omega
          | none =>
            cases h2 : scanForPat lfLf bytes with
            | some j => simp only [h4, h2] at h; omega
            | none => simp only [h4, h2] at h; omega
    · rintro ⟨hlen, hpro⟩
      rw [findHeaderBodySeparator, hplen, if_neg (by omega), if_pos hpro]
  · intro i hlen hpro hat hbefore
    have h4 : scanForPat crlfCrlf bytes = some (i + 4) :=
      (scanForPat_some_iff crlfCrlf (by simp [crlfCrlf]) bytes (i + 4)).2
        ⟨i, by simp [crlfCrlf], hat, hbefore⟩
    rw [findHeaderBodySeparator, hplen, if_neg (by omega), if_neg (by simp [hpro]), h4]
    push_cast
    ring
  · intro i hlen hpro hno4 hat hbefore
    have h4 : scanForPat crlfCrlf bytes = none :=
      (scanForPat_none_iff crlfCrlf (by simp [crlfCrlf]) bytes).2 hno4
    have h2 : scanForPat lfLf bytes = some (i + 2) :=
      (scanForPat_some_iff lfLf (by simp [lfLf]) bytes (i + 2)).2
        ⟨i, by simp [lfLf], hat, hbefore⟩
    rw [findHeaderBodySeparator, hplen, if_neg (by omega), if_neg (by simp [hpro])]
    rw [h4, h2]
    push_cast
    ring
  · intro hlen hpro hno4 hno2
    have h4 : scanForPat crlfCrlf bytes = none :=
      (scanForPat_none_iff crlfCrlf (by simp [crlfCrlf]) bytes).2 hno4
    have h2 : scanForPat lfLf bytes = none :=
      (scanForPat_none_iff lfLf (by simp [lfLf]) bytes).2 hno2
    rw [findHeaderBodySeparator, hplen, if_neg (by omega), if_neg (by simp [hpro]), h4, h2]

/-! ## Text layer

`TextDecoder().decode` / `TextEncoder().encode` are modelled
character-per-byte; all header text the claims exercise is ASCII, where
UTF-8 coding is the identity on code points. -/

def decodeChars (bs : List Nat) : List Char := bs.map Char.ofNat

def charsToStr (cs : List Char) : String := String.mk cs

def decodeBytes (bs : List Nat) : String := charsToStr (decodeChars bs)

def encodeString (s : String) : List Nat := s.data.map Char.toNat

/-- Models `text.replace(/\r\n/g, "\n")`: global, left-to-right,
non-overlapping replacement. -/
def normalizeCrLf : List Char → List Char
  | [] => []
  | [c] => [c]
  | c1 :: c2 :: rest =>
    if c1 = '\r' ∧ c2 = '\n' then '\n' :: normalizeCrLf rest
    else c1 :: normalizeCrLf (c2 :: rest)

/-- Models `String.prototype.split(sep)` for a single-character separator:
always returns at least one (possibly empty) piece. -/
def splitOnChar (sep : Char) : List Char → List (List Char)
  | [] => [[]]
  | c :: rest =>
    if c = sep then [] :: splitOnChar sep rest
    else
      match splitOnChar sep rest with
      | l :: ls => (c :: l) :: ls
      | [] => [[c]]

/-- The whitespace class of JS `String.prototype.trim` and `\s`, restricted
to its ASCII members. -/
def isJsSpace (c : Char) : Bool :=
  c = ' ' || c = '\t' || c = '\n' || c = '\r' || c.toNat = 11 || c.toNat = 12

/-- Models `String.prototype.trim` (strip whitespace from both ends). -/
def trimChars (cs : List Char) : List Char :=
  ((cs.dropWhile isJsSpace).reverse.dropWhile isJsSpace).reverse

/-- Models `String.prototype.toLowerCase` on ASCII text. -/
def lowerStr (s : String) : String := charsToStr (s.data.map Char.toLower)

/-- Models `String.prototype.toUpperCase` on ASCII text. -/
def upperStr (s : String) : String := charsToStr (s.data.map Char.toUpper)

/-! ## Header block parser: `parseCgiHead` -/

/-- Models `value.match(/^(\d{3})/)` followed by `parseInt(m[1], 10)`:
the number formed by the first three characters when all are digits. -/
def leading3Digits (v : String) : Option Nat :=
  match v.data with
  | d1 :: d2 :: d3 :: _ =>
    if d1.isDigit ∧ d2.isDigit ∧ d3.isDigit then
      some (((d1.toNat - 48) * 10 + (d2.toNat - 48)) * 10 + (d3.toNat - 48))
    else none
  | _ => none

def startsWithChars : List Char → List Char → Bool
  | _, [] => true
  | [], _ :: _ => false
  | h :: hs, n :: ns => if h = n then startsWithChars hs ns else false

/-- Models `lines[0].match(/^HTTP\/\d+\.\d+\s+(\d{3})/i)` on a line already
known to start with `"HTTP/"`: digits, a dot, digits, whitespace, then the
captured three digits. -/
def httpLineStatus (l0 : List Char) : Option Nat :=
  let r1 := l0.drop 5
  let d1 := r1.takeWhile Char.isDigit
  let r2 := r1.dropWhile Char.isDigit
  if d1.length = 0 then none
  else
    match r2 with
    | '.' :: r3 =>
      let d2 := r3.takeWhile Char.isDigit
      let r4 := r3.dropWhile Char.isDigit
      if d2.length = 0 then none
      else
        let sp := r4.takeWhile isJsSpace
        let r5 := r4.dropWhile isJsSpace
        if sp.length = 0 then none else leading3Digits (charsToStr r5)
    | _ => none

/-- The decoded, CRLF-normalised, newline-split, non-empty lines of a CGI
head block (`parseCgiHead` lines 370-371 of the source). -/
def cgiHeadLines (headBytes : List Nat) : List (List Char) :=
  (splitOnChar '\n' (normalizeCrLf (decodeChars headBytes))).filter
    (fun l => 0 < l.length)

/-- One pass of the `parseCgiHead` header-line loop: first colon splits the
line; a (case-insensitive) `status` name with a leading-3-digit value
updates the status and is never inserted; other names insert, combining an
exact duplicate name with `", "`. -/
def parseHeadLines :
    List (List Char) → List (String × String) → Nat → List (String × String) × Nat
  | [], headers, status => (headers, status)
  | line :: rest, headers, status =>
    match line.findIdx? (fun c => c = ':') with
    | none => parseHeadLines rest headers status
    | some sep =>
      let name := charsToStr (trimChars (line.take sep))
      let value := charsToStr (trimChars (line.drop (sep + 1)))
      if lowerStr name = "status" then
        match leading3Digits value with
        | some n => parseHeadLines rest headers n
        | none => parseHeadLines rest headers status
      else
        match mapGet headers name with
        | some prev => parseHeadLines rest (mapSet headers name (prev ++ ", " ++ value)) status
        | none => parseHeadLines rest (headers ++ [(name, value)]) status

/-- Source `parseCgiHead`: optional leading `HTTP/x.y NNN` status line
(skipped, possibly setting the status), then the header-line loop, starting
from status 200. -/
def parseCgiHead (headBytes : List Nat) : List (String × String) × Nat :=
  match cgiHeadLines headBytes with
  | [] => ([], 200)
  | l0 :: rest =>
    if startsWithChars l0 ("HTTP/".data) then
      parseHeadLines rest []
        (match httpLineStatus l0 with
         | some n => n
         | none => 200)
    else parseHeadLines (l0 :: rest) [] 200

/-! ## Fetch `Headers` model and `setCgiHeaders` -/

/-- `Headers.set`: header names are case-insensitive, so the entry is keyed
by the lower-cased name; `set` replaces any existing value. -/
def headersSet (hs : List (String × String)) (k v : String) : List (String × String) :=
  mapSet hs (lowerStr k) v

def headersGet (hs : List (String × String)) (k : String) : Option String :=
  mapGet hs (lowerStr k)

def headersHas (hs : List (String × String)) (k : String) : Bool :=
  (headersGet hs k).isSome

/-- Models `/^(connection|transfer-encoding)$/i.test(k)`. -/
def isHopByHopName (k : String) : Bool :=
  lowerStr k = "connection" || lowerStr k = "transfer-encoding"

/-- Source `setCgiHeaders`: copy the parsed CGI headers into the outgoing
`Headers`, dropping hop-by-hop names, then default `Content-Type`. -/
def setCgiHeaders (hs : List (String × String)) (cgiHeaders : List (String × String)) :
    List (String × String) :=
  let hs1 := cgiHeaders.foldl
    (fun acc kv => if isHopByHopName kv.1 then acc else headersSet acc kv.1 kv.2) hs
  if headersHas hs1 "Content-Type" then hs1
  else headersSet hs1 "Content-Type" "application/octet-stream"

/-! ## Batch responder: `parseCgiResponse` and `getCgiResponse` -/

structure CgiParseResult where
  headers : List (String × String)
  status : Nat
  body : List Nat

/-- Source `parseCgiResponse`: no boundary means no headers and the whole
stdout as body; otherwise split at the boundary and parse the head. -/
def parseCgiResponse (stdout : List Nat) : CgiParseResult :=
  let sepIdx := findHeaderBodySeparator stdout
  if sepIdx < 0 then
    { headers := [], status := 200, body := stdout }
  else
    let i := sepIdx.toNat
    let hd := parseCgiHead (stdout.take i)
    { headers := hd.1, status := hd.2, body := stdout.drop i }

theorem length_dropWhile_le' (l : List Char) (p : Char → Bool) :
    (l.dropWhile p).length ≤ l.length := by
  induction l with
  | nil => simp
  | cons a t ih =>
    by_cases h : p a = true
    · rw [List.dropWhile_cons, if_pos h]; simp; omega
    · rw [List.dropWhile_cons, if_neg h]

/-- Models `safeHeaderValue`: `replace(/[\r\n]+/g, " ")` (each maximal run
of CR/LF characters becomes one space) then `slice(0, 1024)`. -/
def replaceNewlineRuns : List Char → List Char
  | [] => []
  | c :: rest =>
    if c = '\r' ∨ c = '\n' then
      ' ' :: replaceNewlineRuns (rest.dropWhile (fun d => d = '\r' || d = '\n'))
    else c :: replaceNewlineRuns rest
termination_by cs => cs.length
decreasing_by
  · simp only [List.length_cons]
    exact Nat.lt_succ_of_le (length_dropWhile_le' rest _)
  · simp

def safeHeaderValue (s : String) : String :=
  charsToStr ((replaceNewlineRuns s.data).take 1024)

structure BatchResponse where
  status : Nat
  headers : List (String × String)
  body : List Nat

/-- The headers object literal of the malformed-CGI fallback branch of
`getCgiResponse` (lines 210-215 of the source): `Content-Type` depending on
whether the parsed body is non-empty, plus `X-CGI-Exit-Code`. -/
def batchFallbackHeaders (bodyLen : Nat) (exitCode : Int) : List (String × String) :=
  headersSet
    (headersSet [] "Content-Type"
      (if 0 < bodyLen then "application/octet-stream"
       else "text/plain; charset=utf-8"))
    "X-CGI-Exit-Code" (toString exitCode)

/-- The `denoHeaders` construction of the headers-found branch of
`getCgiResponse` (lines 221-235): parsed headers via `setCgiHeaders`, the
diagnostic headers, and a defaulted `Content-Length`. -/
def batchFoundHeaders (cgiHeaders : List (String × String)) (bodyLen : Nat)
    (stderr : List Nat) (exitCode : Int) : List (String × String) :=
  let dh1 := setCgiHeaders [] cgiHeaders
  let dh2 :=
    if exitCode ≠ 0 then headersSet dh1 "X-CGI-Exit-Code" (toString exitCode) else dh1
  let dh3 :=
    if 0 < stderr.length then
      headersSet dh2 "X-CGI-StdErr" (safeHeaderValue (decodeBytes stderr))
    else dh2
  if headersHas dh3 "Content-Length" = false then
    headersSet dh3 "Content-Length" (toString bodyLen)
  else dh3

/-- Source `getCgiResponse`, given the collected stdout, stderr and exit
code of the terminated child: malformed fallback when no headers were
parsed, otherwise the parsed status/headers/body with diagnostic headers
and a defaulted `Content-Length`. -/
def getCgiResponse (stdout stderr : List Nat) (exitCode : Int) : BatchResponse :=
  let r := parseCgiResponse stdout
  if r.headers.length = 0 then
    let message :=
      if 0 < stderr.length then decodeBytes stderr
      else "Malformed CGI response (no headers)."
    { status := if exitCode = 0 ∧ 0 < r.body.length then 200 else 500
      headers := batchFallbackHeaders r.body.length exitCode
      body := if 0 < r.body.length then r.body else encodeString message }
  else
    { status := r.status
      headers := batchFoundHeaders r.headers r.body.length stderr exitCode
      body := r.body }

/-! ## Streaming responder

The live stdout stream is modelled as the list of chunks it will deliver;
the response body is likewise a list of chunks. -/

/-- Source `utils.ts` `getPrefixedStream`: enqueue the prefix when
non-empty, then every non-empty chunk of the source stream. -/
def getPrefixedStream (pfx : List Nat) (chunks : List (List Nat)) : List (List Nat) :=
  (if 0 < pfx.length then [pfx] else []) ++ chunks.filter (fun c => 0 < c.length)

/-- The head-scanning read loop of `getStreamingCgiResponse`: accumulate
chunks, re-running the scanner after each non-empty chunk; stop on a found
boundary or bad prologue, on exceeding the 16 KiB cap, or at stream end.
Returns the accumulated bytes, the last scanner result, and the chunks not
yet consumed. -/
def streamHeadLoop : List (List Nat) → List Nat → Int → List Nat × Int × List (List Nat)
  | [], acc, sep => (acc, sep, [])
  | chunk :: rest, acc, sep =>
    if 0 < chunk.length then
      let acc2 := acc ++ chunk
      let sep2 := findHeaderBodySeparator acc2
      if 0 ≤ sep2 ∨ sep2 = -2 then (acc2, sep2, rest)
      else if 16384 < acc2.length then (acc2, sep2, rest)
      else streamHeadLoop rest acc2 sep2
    else if 16384 < acc.length then (acc, sep, rest)
    else streamHeadLoop rest acc sep

structure StreamingResponse where
  status : Nat
  headers : List (String × String)
  bodyChunks : List (List Nat)

/-- Source `getStreamingCgiResponse`: run the head-scanning loop; without a
boundary stream everything through with default headers, otherwise parse
the head and stream the remainder. -/
def getStreamingCgiResponse (stdoutChunks : List (List Nat)) : StreamingResponse :=
  match streamHeadLoop stdoutChunks [] (-1) with
  | (headBytes, sepIndex, rest) =>
    if sepIndex < 0 then
      { status := 200
        headers := headersSet [] "Content-Type" "application/octet-stream"
        bodyChunks := getPrefixedStream headBytes rest }
    else
      let i := sepIndex.toNat
      let remainder := headBytes.drop i
      let hd := parseCgiHead (headBytes.take i)
      { status := hd.2
        headers := setCgiHeaders [] hd.1
        bodyChunks := getPrefixedStream remainder rest }

/-! ## Environment builder (`executeCgi` lines 111-164) -/

/-- The parts of a fetch `Request` the builder reads.  `urlProtocol`,
`pathname` and `search` are the fields of `new URL(request.url)`; `search`
is either empty or starts with `?`.  Header names are as iterated by the
`Headers` object (lower-case in Deno). -/
structure CgiRequest where
  method : String
  urlProtocol : String
  pathname : String
  search : String
  headers : List (String × String)

/-- The `CgiExecutionOptions` record; absent (`undefined`) options are
`none`, and `env` holds the entries of the caller's extra environment
object in property order. -/
structure CgiOptions where
  streaming : Option Bool := none
  env : List (String × String) := []
  serverSoftware : Option String := none
  serverProtocol : Option String := none
  serverPort : Option String := none
  remoteAddr : Option String := none
  remoteHost : Option String := none
  scriptName : Option String := none
  pathInfo : Option String := none
  pathTranslated : Option String := none
  networkProtocol : Option String := none

def defaultOptions : CgiOptions := {}

/-- Source `getNetworkProtocol`. -/
def getNetworkProtocol (urlProtocol : String) : Option String :=
  if urlProtocol = "https:" then some "https"
  else if urlProtocol = "http:" then some "http"
  else none

/-- `request.headers.get(name)` (case-insensitive; duplicate inbound names
are already combined by the `Headers` object). -/
def reqHeadersGet (hs : List (String × String)) (name : String) : Option String :=
  (hs.find? (fun kv => lowerStr kv.1 = lowerStr name)).map Prod.snd

/-- Models `k.toUpperCase().replace("-", "_")`: note that with a string
pattern, `String.prototype.replace` replaces only the FIRST occurrence. -/
def replaceFirstDash : List Char → List Char
  | [] => []
  | c :: rest => if c = '-' then '_' :: rest else c :: replaceFirstDash rest

def headerEnvName (k : String) : String :=
  charsToStr (replaceFirstDash (upperStr k).data)

/-- The standard-variable object literal of `executeCgi` (lines 125-140),
including the host/port derivation above it. -/
def standardEnv (request : CgiRequest) (options : CgiOptions) : List (String × String) :=
  let networkProtocol :=
    match options.networkProtocol with
    | some p => some p
    | none => getNetworkProtocol request.urlProtocol
  let hostHeader := (reqHeadersGet request.headers "host").getD ""
  let hostParts := splitOnChar ':' hostHeader.data
  let serverName := charsToStr (hostParts.headD [])
  let portMaybe := (hostParts.get? 1).map charsToStr
  let serverPort :=
    options.serverPort.getD
      (portMaybe.getD
        (if networkProtocol = some "https" then "443"
         else if networkProtocol = some "http" then "80"
         else ""))
  [("GATEWAY_INTERFACE", "CGI/1.1"),
   ("PATH_INFO", options.pathInfo.getD ""),
   ("PATH_TRANSLATED", options.pathTranslated.getD ""),
   ("QUERY_STRING", if 1 < request.search.length then request.search.drop 1 else ""),
   ("REMOTE_ADDR", options.remoteAddr.getD ""),
   ("REMOTE_HOST", options.remoteHost.getD ""),
   ("REQUEST_METHOD", request.method),
   ("REQUEST_URI", request.pathname ++ request.search),
   ("SCRIPT_NAME", options.scriptName.getD ""),
   ("SERVER_NAME", serverName),
   ("SERVER_PORT", serverPort),
   ("SERVER_PROTOCOL", options.serverProtocol.getD "HTTP/1.1"),
   ("SERVER_SOFTWARE", options.serverSoftware.getD "deno-cgi")]

/-- The header-forwarding loop of `executeCgi` (lines 143-152). -/
def addHeaderVars (env : List (String × String)) (hs : List (String × String)) :
    List (String × String) :=
  hs.foldl
    (fun acc kv =>
      let upper := headerEnvName kv.1
      if upper = "CONTENT_TYPE" then mapSet acc "CONTENT_TYPE" kv.2
      else if upper = "CONTENT_LENGTH" then mapSet acc "CONTENT_LENGTH" kv.2
      else mapSet acc ("HTTP_" ++ upper) kv.2)
    env

/-- The complete computed CGI environment (`env` at line 164). -/
def buildCgiEnv (request : CgiRequest) (options : CgiOptions) : List (String × String) :=
  addHeaderVars (standardEnv request options) request.headers

/-- The environment object handed to `Deno.Command`:
`{ ...options.env, ...env }`. -/
def spawnEnv (request : CgiRequest) (options : CgiOptions) : List (String × String) :=
  objFromEntries (options.env ++ buildCgiEnv request options)

/-! ## Lemmas about the `Headers` model and `setCgiHeaders` -/

theorem headersGet_headersSet (hs : List (String × String)) (k v q : String) :
    headersGet (headersSet hs k v) q =
      if lowerStr k = lowerStr q then some v else headersGet hs q := by
  unfold headersGet headersSet
  rw [mapGet_mapSet]

theorem headersGet_foldCgi_of_no_name (cgi : List (String × String))
    (hs : List (String × String)) (q : String)
    (hq : ∀ kv ∈ cgi, lowerStr kv.1 ≠ lowerStr q) :
    headersGet
      (cgi.foldl
        (fun acc kv => if isHopByHopName kv.1 then acc else headersSet acc kv.1 kv.2) hs) q =
      headersGet hs q := by
  induction cgi generalizing hs with
  | nil => rfl
  | cons kv t ih =>
    rw [List.foldl_cons, ih _ (fun x hx => hq x (List.mem_cons_of_mem kv hx))]
    by_cases hh : isHopByHopName kv.1 = true
    · rw [if_pos hh]
    · rw [if_neg hh, headersGet_headersSet,
        if_neg (hq kv (List.mem_cons_self kv t))]

theorem setCgiHeaders_ct_isSome (hs cgi : List (String × String)) :
    (headersGet (setCgiHeaders hs cgi) "Content-Type").isSome = true := by
  unfold setCgiHeaders
  by_cases h : headersHas
      (cgi.foldl
        (fun acc kv => if isHopByHopName kv.1 then acc else headersSet acc kv.1 kv.2) hs)
      "Content-Type" = true
  · rw [if_pos h]
    exact h
  · rw [if_neg h, headersGet_headersSet, if_pos rfl]
    rfl

theorem setCgiHeaders_ct_default (cgi : List (String × String))
    (h : ∀ kv ∈ cgi, lowerStr kv.1 ≠ "content-type") :
    headersGet (setCgiHeaders [] cgi) "Content-Type" = some "application/octet-stream" := by
  have hlow : lowerStr "Content-Type" = "content-type" := by decide
  have hnone : headersGet
      (cgi.foldl
        (fun acc kv => if isHopByHopName kv.1 then acc else headersSet acc kv.1 kv.2) [])
      "Content-Type" = none := by
    rw [headersGet_foldCgi_of_no_name cgi [] "Content-Type"
      (fun kv hkv => by rw [hlow]; exact h kv hkv)]
    rfl
  unfold setCgiHeaders
  rw [if_neg (by unfold headersHas; rw [hnone]; simp), headersGet_headersSet, if_pos rfl]

theorem batchFallbackHeaders_exit (blen : Nat) (code : Int) :
    headersGet (batchFallbackHeaders blen code) "X-CGI-Exit-Code" = some (toString code) := by
  unfold batchFallbackHeaders
  rw [headersGet_headersSet, if_pos rfl]

theorem batchFallbackHeaders_ct (blen : Nat) (code : Int) :
    headersGet (batchFallbackHeaders blen code) "Content-Type" =
      some (if 0 < blen then "application/octet-stream"
            else "text/plain; charset=utf-8") := by
  unfold batchFallbackHeaders
  rw [headersGet_headersSet, if_neg (by decide), headersGet_headersSet, if_pos rfl]

theorem batchFoundHeaders_ct (cgiHeaders : List (String × String)) (blen : Nat)
    (stderr : List Nat) (code : Int) :
    headersGet (batchFoundHeaders cgiHeaders blen stderr code) "Content-Type" =
      headersGet (setCgiHeaders [] cgiHeaders) "Content-Type" := by
  unfold batchFoundHeaders
  by_cases h2 : code ≠ 0 <;> by_cases h3 : 0 < stderr.length <;>
    simp only [h2, h3, if_true, if_false, ite_true, ite_false, if_pos, if_neg,
      not_true_eq_false, not_false_eq_true, ite_not] <;>
    split <;>
    simp [headersGet_headersSet, (by decide : ¬(lowerStr "Content-Length" = lowerStr "Content-Type")),
      (by decide : ¬(lowerStr "X-CGI-StdErr" = lowerStr "Content-Type")),
      (by decide : ¬(lowerStr "X-CGI-Exit-Code" = lowerStr "Content-Type"))]

/-! ## Lemmas about the header-line loop (`parseCgiHead`) -/

/-- The status contribution of one header line: `some n` exactly when the
line has a colon, its trimmed name is case-insensitively `status`, and its
trimmed value starts with three digits forming `n`. -/
def lineStatusValue (line : List Char) : Option Nat :=
  match line.findIdx? (fun c => c = ':') with
  | none => none
  | some sep =>
    if lowerStr (charsToStr (trimChars (line.take sep))) = "status" then
      leading3Digits (charsToStr (trimChars (line.drop (sep + 1))))
    else none

theorem getLast?_getD_cons (a : Nat) (l : List Nat) (st : Nat) :
    ((a :: l).getLast?).getD st = (l.getLast?).getD a := by
  induction l generalizing a with
  | nil => rfl
  | cons b t ih =>
    rw [List.getLast?_cons_cons]
    cases h : (b :: t).getLast? with
    | none => exact absurd h (by simp [List.getLast?_eq_none_iff])
    | some x => simp [h] at ih ⊢

theorem parseHeadLines_status (lines : List (List Char))
    (hs : List (String × String)) (st : Nat) :
    (parseHeadLines lines hs st).2 =
      ((lines.filterMap lineStatusValue).getLast?).getD st := by
  induction lines generalizing hs st with
  | nil => simp [parseHeadLines]
  | cons line rest ih =>
    rw [List.filterMap_cons]
    cases hsep : line.findIdx? (fun c => c = ':') with
    | none =>
      rw [show lineStatusValue line = none by rw [lineStatusValue, hsep]]
      simp only [parseHeadLines, hsep]
      exact ih hs st
    | some sep =>
      by_cases hname : lowerStr (charsToStr (trimChars (line.take sep))) = "status"
      · cases hdig : leading3Digits (charsToStr (trimChars (line.drop (sep + 1)))) with
        | some n =>
          rw [show lineStatusValue line = some n by
            rw [lineStatusValue, hsep]; simp [hname, hdig]]
          simp only [parseHeadLines, hsep, hname, if_pos, hdig]
          rw [ih hs n, getLast?_getD_cons]
        | none =>
          rw [show lineStatusValue line = none by
            rw [lineStatusValue, hsep]; simp [hname, hdig]]
          simp only [parseHeadLines, hsep, hname, if_pos, hdig]
          exact ih hs st
      · rw [show lineStatusValue line = none by
          rw [lineStatusValue, hsep]; simp [hname]]
        simp only [parseHeadLines, hsep, hname, if_neg, ite_false]
        cases hget : mapGet hs (charsToStr (trimChars (line.take sep))) with
        | some prev => simp only [hget]; exact ih _ st
        | none => simp only [hget]; exact ih _ st

theorem parseHeadLines_no_status_key (lines : List (List Char))
    (hs : List (String × String)) (st : Nat) (k : String)
    (hk : lowerStr k = "status") :
    mapGet (parseHeadLines lines hs st).1 k = mapGet hs k := by
  induction lines generalizing hs st with
  | nil => rfl
  | cons line rest ih =>
    cases hsep : line.findIdx? (fun c => c = ':') with
    | none =>
      simp only [parseHeadLines, hsep]
      exact ih hs st
    | some sep =>
      by_cases hname : lowerStr (charsToStr (trimChars (line.take sep))) = "status"
      · cases hdig : leading3Digits (charsToStr (trimChars (line.drop (sep + 1)))) with
        | some n =>
          simp only [parseHeadLines, hsep, hname, if_pos, hdig]
          exact ih hs n
        | none =>
          simp only [parseHeadLines, hsep, hname, if_pos, hdig]
          exact ih hs st
      · have hne : charsToStr (trimChars (line.take sep)) ≠ k := by
          intro he
          rw [he, hk] at hname
          exact hname rfl
        simp only [parseHeadLines, hsep, hname, if_neg, ite_false]
        cases hget : mapGet hs (charsToStr (trimChars (line.take sep))) with
        | some prev =>
          simp only [hget]
          rw [ih _ st, mapGet_mapSet, if_neg hne]
        | none =>
          simp only [hget]
          rw [ih _ st, mapGet_append]
          cases hgk : mapGet hs k with
          | some v => rfl
          | none => simp [mapGet, hne]

/-- The lines of the head block after the optional leading `HTTP/` status
line is skipped. -/
def headBodyLines (headBytes : List Nat) : List (List Char) :=
  match cgiHeadLines headBytes with
  | [] => []
  | l0 :: rest =>
    if startsWithChars l0 ("HTTP/".data) then rest else l0 :: rest

/-- The status before any `Status:` header applies: from the leading
`HTTP/x.y NNN` line when present and well-formed, else 200. -/
def headBaseStatus (headBytes : List Nat) : Nat :=
  match cgiHeadLines headBytes with
  | [] => 200
  | l0 :: _ =>
    if startsWithChars l0 ("HTTP/".data) then
      match httpLineStatus l0 with
      | some n => n
      | none => 200
    else 200

/-! ## Lemmas for the streaming responder -/

theorem flatten_filter_pos (chunks : List (List Nat)) :
    (chunks.filter (fun c => 0 < c.length)).flatten = chunks.flatten := by
  induction chunks with
  | nil => rfl
  | cons c t ih =>
    by_cases h : 0 < c.length
    · simp [List.filter_cons, h, List.flatten_cons, ih]
    · have hc : c = [] := by
        cases c with
        | nil => rfl
        | cons a b => simp at h
      subst hc
      simpa using ih

theorem getPrefixedStream_flatten (pfx : List Nat) (chunks : List (List Nat)) :
    (getPrefixedStream pfx chunks).flatten = pfx ++ chunks.flatten := by
  unfold getPrefixedStream
  by_cases h : 0 < pfx.length
  · simp [h, flatten_filter_pos]
  · have hp : pfx = [] := by
      cases pfx with
      | nil => rfl
      | cons a b => simp at h
    subst hp
    simp [flatten_filter_pos]

/-! ## Lemmas about the environment builder -/

/-- The 13 standard variable names the builder's object literal always
sets (note: not all 18 names of `reservedEnvNames`). -/
def standardComputedEnvNames : List String :=
  ["GATEWAY_INTERFACE", "PATH_INFO", "PATH_TRANSLATED", "QUERY_STRING",
   "REMOTE_ADDR", "REMOTE_HOST", "REQUEST_METHOD", "REQUEST_URI",
   "SCRIPT_NAME", "SERVER_NAME", "SERVER_PORT", "SERVER_PROTOCOL",
   "SERVER_SOFTWARE"]

theorem mapKeys_standardEnv (request : CgiRequest) (options : CgiOptions) :
    mapKeys (standardEnv request options) = standardComputedEnvNames := rfl

theorem mapSet_preserves_isSome (m : List (String × String)) (k v q : String)
    (h : (mapGet m q).isSome = true) : (mapGet (mapSet m k v) q).isSome = true := by
  rw [mapGet_mapSet]
  by_cases hk : k = q
  · rw [if_pos hk]; rfl
  · rw [if_neg hk]; exact h

theorem addHeaderVars_step_isSome (acc : List (String × String)) (kv : String × String)
    (q : String) (h : (mapGet acc q).isSome = true) :
    (mapGet
      (if headerEnvName kv.1 = "CONTENT_TYPE" then mapSet acc "CONTENT_TYPE" kv.2
       else if headerEnvName kv.1 = "CONTENT_LENGTH" then mapSet acc "CONTENT_LENGTH" kv.2
       else mapSet acc ("HTTP_" ++ headerEnvName kv.1) kv.2) q).isSome = true := by
  by_cases h1 : headerEnvName kv.1 = "CONTENT_TYPE"
  · rw [if_pos h1]; exact mapSet_preserves_isSome acc _ _ q h
  · rw [if_neg h1]
    by_cases h2 : headerEnvName kv.1 = "CONTENT_LENGTH"
    · rw [if_pos h2]; exact mapSet_preserves_isSome acc _ _ q h
    · rw [if_neg h2]; exact mapSet_preserves_isSome acc _ _ q h

theorem addHeaderVars_preserves_isSome (hs : List (String × String))
    (env : List (String × String)) (q : String)
    (h : (mapGet env q).isSome = true) :
    (mapGet (addHeaderVars env hs) q).isSome = true := by
  induction hs generalizing env with
  | nil => exact h
  | cons kv t ih =>
    rw [addHeaderVars, List.foldl_cons]
    exact ih _ (addHeaderVars_step_isSome env kv q h)

theorem addHeaderVars_step_nodup (acc : List (String × String)) (kv : String × String)
    (h : (mapKeys acc).Nodup) :
    (mapKeys
      (if headerEnvName kv.1 = "CONTENT_TYPE" then mapSet acc "CONTENT_TYPE" kv.2
       else if headerEnvName kv.1 = "CONTENT_LENGTH" then mapSet acc "CONTENT_LENGTH" kv.2
       else mapSet acc ("HTTP_" ++ headerEnvName kv.1) kv.2)).Nodup := by
  by_cases h1 : headerEnvName kv.1 = "CONTENT_TYPE"
  · rw [if_pos h1]; exact nodup_mapKeys_mapSet acc _ _ h
  · rw [if_neg h1]
    by_cases h2 : headerEnvName kv.1 = "CONTENT_LENGTH"
    · rw [if_pos h2]; exact nodup_mapKeys_mapSet acc _ _ h
    · rw [if_neg h2]; exact nodup_mapKeys_mapSet acc _ _ h

theorem addHeaderVars_nodup (hs : List (String × String))
    (env : List (String × String)) (h : (mapKeys env).Nodup) :
    (mapKeys (addHeaderVars env hs)).Nodup := by
  induction hs generalizing env with
  | nil => exact h
  | cons kv t ih =>
    rw [addHeaderVars, List.foldl_cons]
    exact ih _ (addHeaderVars_step_nodup env kv h)

theorem buildCgiEnv_nodup (request : CgiRequest) (options : CgiOptions) :
    (mapKeys (buildCgiEnv request options)).Nodup := by
  unfold buildCgiEnv
  apply addHeaderVars_nodup
  rw [mapKeys_standardEnv]
  decide

theorem buildCgiEnv_standard_isSome (request : CgiRequest) (options : CgiOptions)
    (name : String) (h : name ∈ standardComputedEnvNames) :
    (mapGet (buildCgiEnv request options) name).isSome = true := by
  unfold buildCgiEnv
  apply addHeaderVars_preserves_isSome
  rw [mapGet_isSome_iff, mapKeys_standardEnv]
  exact h

/-! ## String-building lemmas for round-tripping constructed header blocks -/

theorem decodeChars_encodeString (s : String) : decodeChars (encodeString s) = s.data := by
  unfold decodeChars encodeString
  rw [List.map_map]
  simp [Function.comp_def, Char.ofNat_toNat]

theorem normalizeCrLf_of_no_cr (cs : List Char) (h : '\r' ∉ cs) :
    normalizeCrLf cs = cs := by
  induction cs with
  | nil => rfl
  | cons c1 rest ih =>
    cases rest with
    | nil => rfl
    | cons c2 rest2 =>
      simp only [normalizeCrLf]
      rw [if_neg (by rintro ⟨rfl, -⟩; exact h (List.mem_cons_self _ _))]
      rw [ih (fun hm => h (List.mem_cons_of_mem c1 hm))]

theorem splitOnChar_not_mem (sep : Char) (cs : List Char) (h : sep ∉ cs) :
    splitOnChar sep cs = [cs] := by
  induction cs with
  | nil => rfl
  | cons c rest ih =>
    simp only [splitOnChar]
    rw [if_neg (fun he => h (by rw [← he]; exact List.mem_cons_self c rest))]
    rw [ih (fun hm => h (List.mem_cons_of_mem c hm))]

theorem splitOnChar_append (sep : Char) (a b : List Char) (ha : sep ∉ a) :
    splitOnChar sep (a ++ sep :: b) = a :: splitOnChar sep b := by
  induction a with
  | nil => simp [splitOnChar]
  | cons x a' ih =>
    simp only [List.cons_append, splitOnChar, List.append_eq]
    rw [if_neg (fun he => ha (by rw [← he]; exact List.mem_cons_self x a'))]
    rw [ih (fun hm => ha (List.mem_cons_of_mem x hm))]

theorem trimChars_space_cons (l : List Char) : trimChars (' ' :: l) = trimChars l := by
  unfold trimChars
  rw [List.dropWhile_cons, if_pos (by decide)]

theorem findIdx?_first_aux (p : Char → Bool) (a : List Char) (c : Char) (b : List Char)
    (ha : ∀ x ∈ a, p x = false) (hc : p c = true) (i : Nat) :
    List.findIdx? p (a ++ c :: b) i = some (i + a.length) := by
  induction a generalizing i with
  | nil => simp [List.findIdx?_cons, hc]
  | cons x a' ih =>
    rw [List.cons_append, List.findIdx?_cons,
      if_neg (by rw [ha x (List.mem_cons_self x a')]; simp)]
    rw [ih (fun y hy => ha y (List.mem_cons_of_mem x hy)) (i + 1)]
    congr 1
    simp
    omega

theorem findIdx?_first (p : Char → Bool) (a : List Char) (c : Char) (b : List Char)
    (ha : ∀ x ∈ a, p x = false) (hc : p c = true) :
    List.findIdx? p (a ++ c :: b) = some a.length := by
  have h := findIdx?_first_aux p a c b ha hc 0
  simpa using h

theorem drop_append_cons_length (a : List Char) (c : Char) (b : List Char) :
    (a ++ c :: b).drop (a.length + 1) = b := by
  have h1 : a ++ c :: b = (a ++ [c]) ++ b := by simp
  have h2 : a.length + 1 = (a ++ [c]).length := by simp
  rw [h1, h2, List.drop_left]

/-- Processing one well-formed `name: value` line in the header loop: with
a colon-free, trim-stable, non-`status` name the line inserts `(name,
value)`, combining with `", "` exactly on a byte-identical existing name. -/
theorem parseHeadLines_cons_line (n v : String) (rest : List (List Char))
    (hs : List (String × String)) (st : Nat)
    (hnt : trimChars n.data = n.data) (hnc : ':' ∉ n.data)
    (hvt : trimChars v.data = v.data)
    (hstat : lowerStr n ≠ "status") :
    parseHeadLines ((n.data ++ ':' :: ' ' :: v.data) :: rest) hs st =
      parseHeadLines rest
        (match mapGet hs n with
         | some prev => mapSet hs n (prev ++ ", " ++ v)
         | none => hs ++ [(n, v)]) st := by
  have hidx : (n.data ++ ':' :: ' ' :: v.data).findIdx? (fun c => c = ':') =
      some n.data.length :=
    findIdx?_first _ n.data ':' (' ' :: v.data)
      (fun x hx => by
        simp only [decide_eq_false_iff_not]
        exact fun he => hnc (he ▸ hx))
      (by decide)
  have htake : (n.data ++ ':' :: ' ' :: v.data).take n.data.length = n.data :=
    List.take_left n.data _
  have hdrop : (n.data ++ ':' :: ' ' :: v.data).drop (n.data.length + 1) =
      ' ' :: v.data :=
    drop_append_cons_length n.data ':' (' ' :: v.data)
  have hname : charsToStr (trimChars ((n.data ++ ':' :: ' ' :: v.data).take n.data.length)) = n := by
    rw [htake, hnt]; rfl
  have hval : charsToStr (trimChars ((n.data ++ ':' :: ' ' :: v.data).drop (n.data.length + 1))) = v := by
    rw [hdrop, trimChars_space_cons, hvt]; rfl
  simp only [parseHeadLines, hidx, hname, hval]
  rw [if_neg hstat]
  cases mapGet hs n <;> rfl

/-- C7: in the header block parser, a `Status` header (case-insensitive
name, value starting with three digits) sets the status, the last such line
winning; a status-named key never appears in the produced header map; and
without a leading `HTTP/` status line and without any effective `Status`
header the status is 200. -/
theorem status_header_semantics (headBytes : List Nat) (k : String)
    (hk : lowerStr k = "status") :
    mapGet (parseCgiHead headBytes).1 k = none
    ∧ (parseCgiHead headBytes).2 =
        (((headBodyLines headBytes).filterMap lineStatusValue).getLast?).getD
          (headBaseStatus headBytes)
    ∧ ((headBodyLines headBytes).filterMap lineStatusValue = [] →
        (∀ l0 rest, cgiHeadLines headBytes = l0 :: rest →
          startsWithChars l0 ("HTTP/".data) = false) →
        (parseCgiHead headBytes).2 = 200) := by
  have hmain :
      mapGet (parseCgiHead headBytes).1 k = none
      ∧ (parseCgiHead headBytes).2 =
          (((headBodyLines headBytes).filterMap lineStatusValue).getLast?).getD
            (headBaseStatus headBytes) := by
    unfold parseCgiHead headBodyLines headBaseStatus
    cases hlines : cgiHeadLines headBytes with
    | nil => simp [mapGet]
    | cons l0 rest =>
      by_cases hH : startsWithChars l0 ("HTTP/".data) = true
      · simp only [hH, if_true, if_pos]
        refine ⟨?_, ?_⟩
        · rw [parseHeadLines_no_status_key rest [] _ k hk]; rfl
        · cases hls : httpLineStatus l0 <;>
            simp [parseHeadLines_status]
      · rw [Bool.not_eq_true] at hH
        simp only [hH, Bool.false_eq_true, if_false]
        refine ⟨?_, ?_⟩
        · rw [parseHeadLines_no_status_key (l0 :: rest) [] 200 k hk]; rfl
        · rw [parseHeadLines_status]
  refine ⟨hmain.1, hmain.2, ?_⟩
  intro hempty hnoHTTP
  rw [hmain.2, hempty]
  unfold headBaseStatus
  cases hlines : cgiHeadLines headBytes with
  | nil => rfl
  | cons l0 rest =>
    simp [hnoHTTP l0 rest hlines]

/-- Concrete instances of each of the five `scanner_outcomes` cases:
a 4-byte buffer (NeedMoreData), a wrong prologue (BadPrologue), a CRLFCRLF
boundary at offset 5, an LFLF boundary at offset 6, and a prologue with no
terminator (no boundary). -/
theorem scanner_outcomes_witness :
    (findHeaderBodySeparator [72, 84, 84, 80] = -1 ∧ ([72, 84, 84, 80] : List Nat).length < 5)
    ∧ (findHeaderBodySeparator [88, 84, 84, 80, 47, 13] = -2)
    ∧ (findHeaderBodySeparator [72, 84, 84, 80, 47, 13, 10, 13, 10, 66] = 9)
    ∧ (findHeaderBodySeparator [72, 84, 84, 80, 47, 65, 10, 10, 66] = 8)
    ∧ (findHeaderBodySeparator [72, 84, 84, 80, 47, 65] = -3) := by
  refine ⟨⟨((scanner_outcomes [72, 84, 84, 80]).1).2 (by decide), by decide⟩,
    ((scanner_outcomes [88, 84, 84, 80, 47, 13]).2.1).2 (by decide),
    ?_, ?_, ?_⟩
  · have h := (scanner_outcomes [72, 84, 84, 80, 47, 13, 10, 13, 10, 66]).2.2.1 5
      (by decide) (by decide) (by decide)
      (by decide)
    simpa using h
  · have h := (scanner_outcomes [72, 84, 84, 80, 47, 65, 10, 10, 66]).2.2.2.1 6
      (by decide) (by decide)
      (no_occurrence_of_forall_lt _ _ (by decide) (by decide))
      (by decide)
      (by decide)
    simpa using h
  · exact (scanner_outcomes [72, 84, 84, 80, 47, 65]).2.2.2.2
      (by decide) (by decide)
      (no_occurrence_of_forall_lt _ _ (by decide) (by decide))
      (no_occurrence_of_forall_lt _ _ (by decide) (by decide))

/-- A two-line CGI head block `"n1: v1\nn2: v2"` as the byte buffer the
parser receives. -/
def mkTwoHeaderBlock (n1 v1 n2 v2 : String) : List Nat :=
  encodeString (n1 ++ ": " ++ v1 ++ "\n" ++ n2 ++ ": " ++ v2)

theorem cgiHeadLines_mkTwoHeaderBlock (n1 v1 n2 v2 : String)
    (hn1r : '\r' ∉ n1.data) (hn1l : '\n' ∉ n1.data)
    (hv1r : '\r' ∉ v1.data) (hv1l : '\n' ∉ v1.data)
    (hn2r : '\r' ∉ n2.data) (hn2l : '\n' ∉ n2.data)
    (hv2r : '\r' ∉ v2.data) (hv2l : '\n' ∉ v2.data) :
    cgiHeadLines (mkTwoHeaderBlock n1 v1 n2 v2) =
      [n1.data ++ ':' :: ' ' :: v1.data, n2.data ++ ':' :: ' ' :: v2.data] := by
  unfold cgiHeadLines mkTwoHeaderBlock
  rw [decodeChars_encodeString]
  have hdata : (n1 ++ ": " ++ v1 ++ "\n" ++ n2 ++ ": " ++ v2).data =
      (n1.data ++ ':' :: ' ' :: v1.data) ++ '\n' :: (n2.data ++ ':' :: ' ' :: v2.data) := by
    simp [String.data_append]
  rw [hdata]
  rw [normalizeCrLf_of_no_cr _ (by
    simp only [List.mem_append, List.mem_cons]
    push_neg
    exact ⟨⟨hn1r, by decide, by decide, hv1r⟩, by decide, hn2r, by decide, by decide, hv2r⟩)]
  rw [splitOnChar_append '\n' _ _ (by
    simp only [List.mem_append, List.mem_cons]
    push_neg
    exact ⟨hn1l, by decide, by decide, hv1l⟩)]
  rw [splitOnChar_not_mem '\n' _ (by
    simp only [List.mem_append, List.mem_cons]
    push_neg
    exact ⟨hn2l, by decide, by decide, hv2l⟩)]
  simp [List.filter]

theorem parseCgiHead_of_lines_eq (headBytes : List Nat) (l0 : List Char)
    (rest : List (List Char)) (h : cgiHeadLines headBytes = l0 :: rest)
    (hH : startsWithChars l0 ("HTTP/".data) = false) :
    parseCgiHead headBytes = parseHeadLines (l0 :: rest) [] 200 := by
  unfold parseCgiHead
  rw [h]
  simp [hH]

/-- C10: the header loop combines duplicate lines with `", "` exactly when
the trimmed names are byte-for-byte identical; names differing only in case
yield two separate map entries, and filling the case-insensitive outgoing
`Headers` via `set` makes the later entry replace (not combine with) the
earlier one. -/
theorem duplicate_header_semantics (n1 n2 v1 v2 : String)
    (hn1t : trimChars n1.data = n1.data) (hn1c : ':' ∉ n1.data)
    (hn1r : '\r' ∉ n1.data) (hn1l : '\n' ∉ n1.data)
    (hn1s : lowerStr n1 ≠ "status")
    (hn2t : trimChars n2.data = n2.data) (hn2c : ':' ∉ n2.data)
    (hn2r : '\r' ∉ n2.data) (hn2l : '\n' ∉ n2.data)
    (hn2s : lowerStr n2 ≠ "status")
    (hv1t : trimChars v1.data = v1.data) (hv1r : '\r' ∉ v1.data) (hv1l : '\n' ∉ v1.data)
    (hv2t : trimChars v2.data = v2.data) (hv2r : '\r' ∉ v2.data) (hv2l : '\n' ∉ v2.data)
    (hH : startsWithChars (n1.data ++ ':' :: ' ' :: v1.data) ("HTTP/".data) = false)
    (hhop : isHopByHopName n1 = false) :
    (parseCgiHead (mkTwoHeaderBlock n1 v1 n2 v2)).1 =
      (if n1 = n2 then [(n1, v1 ++ ", " ++ v2)] else [(n1, v1), (n2, v2)])
    ∧ (n1 ≠ n2 → lowerStr n1 = lowerStr n2 →
        headersGet (setCgiHeaders [] [(n1, v1), (n2, v2)]) n1 = some v2) := by
  constructor
  · rw [parseCgiHead_of_lines_eq _ _ _
      (cgiHeadLines_mkTwoHeaderBlock n1 v1 n2 v2 hn1r hn1l hv1r hv1l hn2r hn2l hv2r hv2l) hH]
    rw [parseHeadLines_cons_line n1 v1 _ [] 200 hn1t hn1c hv1t hn1s]
    simp only [mapGet, List.nil_append]
    rw [parseHeadLines_cons_line n2 v2 [] [(n1, v1)] 200 hn2t hn2c hv2t hn2s]
    by_cases he : n1 = n2
    · subst he
      simp [parseHeadLines, mapGet, mapSet]
    · rw [if_neg he]
      simp [parseHeadLines, mapGet, he]
  · intro hne hlow
    have hhop2 : isHopByHopName n2 = false := by
      unfold isHopByHopName at hhop ⊢
      rw [← hlow]
      exact hhop
    have hset : headersSet (headersSet [] n1 v1) n2 v2 = [(lowerStr n1, v2)] := by
      unfold headersSet
      rw [← hlow]
      simp [mapSet]
    unfold setCgiHeaders
    simp only [List.foldl_cons, List.foldl_nil, hhop, hhop2, Bool.false_eq_true, if_false,
      ite_false]
    rw [hset]
    by_cases hct : headersHas [(lowerStr n1, v2)] "Content-Type" = true
    · rw [if_pos hct]
      unfold headersGet
      simp [mapGet]
    · rw [if_neg hct]
      have hctne : lowerStr "Content-Type" ≠ lowerStr n1 := by
        intro he
        apply hct
        unfold headersHas headersGet
        rw [← he]
        simp [mapGet]
      rw [headersGet_headersSet, if_neg hctne]
      unfold headersGet
      simp [mapGet]

/-! ## Batch responder claims -/

theorem parseCgiResponse_of_neg (stdout : List Nat)
    (hsep : findHeaderBodySeparator stdout < 0) :
    parseCgiResponse stdout = ⟨[], 200, stdout⟩ := by
  unfold parseCgiResponse
  simp only [hsep, if_pos]

theorem parseCgiResponse_of_found (stdout : List Nat) (i : Nat)
    (hsep : findHeaderBodySeparator stdout = (i : Int)) :
    parseCgiResponse stdout =
      ⟨(parseCgiHead (stdout.take i)).1, (parseCgiHead (stdout.take i)).2, stdout.drop i⟩ := by
  unfold parseCgiResponse
  rw [hsep]
  rw [if_neg (by omega), Int.toNat_natCast]

/-- C2 (amended): in batch mode, when the Scanner finds a boundary AND the
parsed head block yields at least one header, the response status is the
status parsed from the head (leading HTTP status line or `Status` header,
default 200) and the body is exactly the bytes following the boundary.
(When the head parses to zero headers the malformed fallback applies
instead — see the counterexample.) -/
theorem boundary_split_response (stdout stderr : List Nat) (code : Int) (i : Nat)
    (hsep : findHeaderBodySeparator stdout = (i : Int))
    (hhd : (parseCgiResponse stdout).headers ≠ []) :
    (getCgiResponse stdout stderr code).status = (parseCgiResponse stdout).status
    ∧ (getCgiResponse stdout stderr code).body = stdout.drop i := by
  have hlen : ¬((parseCgiResponse stdout).headers.length = 0) := by
    simpa [List.length_eq_zero] using hhd
  unfold getCgiResponse
  rw [if_neg hlen]
  refine ⟨rfl, ?_⟩
  show (parseCgiResponse stdout).body = stdout.drop i
  rw [parseCgiResponse_of_found stdout i hsep]

/-- C2 counterexample: `"HTTP/1.1 404\n\nbody"` has a boundary (at offset
14) and a parsed status of 404, yet the batch response has status 200: a
head block that parses to zero headers falls into the malformed fallback,
so the claim as stated (status always taken from the parsed head once a
boundary is found) is false. -/
theorem boundary_split_response_counterexample :
    findHeaderBodySeparator (encodeString "HTTP/1.1 404\n\nbody") = 14
    ∧ (parseCgiResponse (encodeString "HTTP/1.1 404\n\nbody")).status = 404
    ∧ (getCgiResponse (encodeString "HTTP/1.1 404\n\nbody") [] 0).status = 200
    ∧ (getCgiResponse (encodeString "HTTP/1.1 404\n\nbody") [] 0).status ≠
        (parseCgiResponse (encodeString "HTTP/1.1 404\n\nbody")).status := by
  refine ⟨?_, ?_, ?_, ?_⟩ <;> decide

theorem boundary_split_response_witness :
    findHeaderBodySeparator (encodeString "HTTP/1.1 404\nX-A: 1\n\nbody") = (21 : Nat)
    ∧ (parseCgiResponse (encodeString "HTTP/1.1 404\nX-A: 1\n\nbody")).headers ≠ []
    ∧ ((getCgiResponse (encodeString "HTTP/1.1 404\nX-A: 1\n\nbody") [] 0).status =
        (parseCgiResponse (encodeString "HTTP/1.1 404\nX-A: 1\n\nbody")).status
      ∧ (getCgiResponse (encodeString "HTTP/1.1 404\nX-A: 1\n\nbody") [] 0).body =
          (encodeString "HTTP/1.1 404\nX-A: 1\n\nbody").drop 21)
    ∧ (parseCgiResponse (encodeString "HTTP/1.1 404\nX-A: 1\n\nbody")).status = 404 := by
  refine ⟨by decide, by decide,
    boundary_split_response _ [] 0 21 (by decide) (by decide), by decide⟩

/-- C6: in batch mode with no boundary found in stdout, the response is a
200 carrying the raw stdout verbatim exactly when the exit code is 0 and
stdout is non-empty; otherwise a 500 whose body is the raw stdout if any,
else the decoded-stderr diagnostic message (or the fixed malformed-response
message when stderr is empty too); `X-CGI-Exit-Code` is always present. -/
theorem no_boundary_batch (stdout stderr : List Nat) (code : Int)
    (hsep : findHeaderBodySeparator stdout < 0) :
    headersGet (getCgiResponse stdout stderr code).headers "X-CGI-Exit-Code" =
      some (toString code)
    ∧ (code = 0 ∧ stdout ≠ [] →
        (getCgiResponse stdout stderr code).status = 200
        ∧ (getCgiResponse stdout stderr code).body = stdout)
    ∧ (¬(code = 0 ∧ stdout ≠ []) →
        (getCgiResponse stdout stderr code).status = 500
        ∧ (getCgiResponse stdout stderr code).body =
            (if stdout ≠ [] then stdout
             else encodeString
               (if stderr ≠ [] then decodeBytes stderr
                else "Malformed CGI response (no headers)."))) := by
  have hpr := parseCgiResponse_of_neg stdout hsep
  unfold getCgiResponse
  rw [hpr]
  simp only [List.length_nil, if_pos rfl]
  refine ⟨batchFallbackHeaders_exit _ _, ?_, ?_⟩
  · rintro ⟨hc, hne⟩
    have hpos : 0 < stdout.length := List.length_pos.2 hne
    constructor
    · simp [hc, hpos]
    · simp [hpos]
  · intro hn
    by_cases hne : stdout ≠ []
    · have hpos : 0 < stdout.length := List.length_pos.2 hne
      have hc : ¬(code = 0) := fun hc => hn ⟨hc, hne⟩
      constructor
      · simp [hc, hpos]
      · simp [hpos, hne]
    · rw [not_not] at hne
      subst hne
      have hpos : ¬(0 < ([] : List Nat).length) := by simp
      constructor
      · simp
      · by_cases hse : stderr ≠ []
        · have hsl : 0 < stderr.length := List.length_pos.2 hse
          simp [hse, hsl]
        · rw [not_not] at hse
          subst hse
          simp

theorem no_boundary_batch_witness :
    (findHeaderBodySeparator (encodeString "plain text, no headers") < 0)
    ∧ ((getCgiResponse (encodeString "plain text, no headers") [] 0).status = 200
      ∧ (getCgiResponse (encodeString "plain text, no headers") [] 0).body =
          encodeString "plain text, no headers")
    ∧ ((getCgiResponse [] (encodeString "boom") 0).status = 500
      ∧ (getCgiResponse [] (encodeString "boom") 0).body =
          encodeString (decodeBytes (encodeString "boom")))
    ∧ headersGet (getCgiResponse [] (encodeString "boom") 0).headers "X-CGI-Exit-Code" =
        some (toString (0 : Int)) := by
  refine ⟨by decide,
    (no_boundary_batch (encodeString "plain text, no headers") [] 0 (by decide)).2.1
      ⟨rfl, by decide⟩,
    ?_, ?_⟩
  · have h := (no_boundary_batch [] (encodeString "boom") 0 (by decide)).2.2
      (by simp)
    refine ⟨h.1, ?_⟩
    rw [h.2]
    decide
  · exact (no_boundary_batch [] (encodeString "boom") 0 (by decide)).1

/-! ## Content-Type invariant (C4) -/

theorem batchFoundHeaders_ct_isSome (cgiHeaders : List (String × String)) (blen : Nat)
    (stderr : List Nat) (code : Int) :
    (headersGet (batchFoundHeaders cgiHeaders blen stderr code) "Content-Type").isSome = true := by
  rw [batchFoundHeaders_ct]
  exact setCgiHeaders_ct_isSome [] cgiHeaders

theorem getStreamingCgiResponse_eq (chunks : List (List Nat)) (acc : List Nat)
    (sep : Int) (rest : List (List Nat))
    (h : streamHeadLoop chunks [] (-1) = (acc, sep, rest)) :
    getStreamingCgiResponse chunks =
      if sep < 0 then
        { status := 200
          headers := headersSet [] "Content-Type" "application/octet-stream"
          bodyChunks := getPrefixedStream acc rest }
      else
        { status := (parseCgiHead (acc.take sep.toNat)).2
          headers := setCgiHeaders [] (parseCgiHead (acc.take sep.toNat)).1
          bodyChunks := getPrefixedStream (acc.drop sep.toNat) rest } := by
  unfold getStreamingCgiResponse
  rw [h]

/-- C4 (amended): every transcoder response carries a `Content-Type`
header; whenever the child's output supplied none it is
`application/octet-stream`, except on the batch malformed-output path with
an empty parsed body, where it is `text/plain; charset=utf-8`. -/
theorem content_type_always_set (stdout stderr : List Nat) (code : Int)
    (chunks : List (List Nat)) :
    (headersGet (getCgiResponse stdout stderr code).headers "Content-Type").isSome = true
    ∧ (headersGet (getStreamingCgiResponse chunks).headers "Content-Type").isSome = true
    ∧ ((parseCgiResponse stdout).headers ≠ [] →
        (∀ kv ∈ (parseCgiResponse stdout).headers, lowerStr kv.1 ≠ "content-type") →
        headersGet (getCgiResponse stdout stderr code).headers "Content-Type" =
          some "application/octet-stream")
    ∧ ((parseCgiResponse stdout).headers = [] → (parseCgiResponse stdout).body ≠ [] →
        headersGet (getCgiResponse stdout stderr code).headers "Content-Type" =
          some "application/octet-stream")
    ∧ ((parseCgiResponse stdout).headers = [] → (parseCgiResponse stdout).body = [] →
        headersGet (getCgiResponse stdout stderr code).headers "Content-Type" =
          some "text/plain; charset=utf-8")
    ∧ (∀ acc sep rest, streamHeadLoop chunks [] (-1) = (acc, sep, rest) →
        (sep < 0 →
          headersGet (getStreamingCgiResponse chunks).headers "Content-Type" =
            some "application/octet-stream")
        ∧ (0 ≤ sep →
            (∀ kv ∈ (parseCgiHead (acc.take sep.toNat)).1, lowerStr kv.1 ≠ "content-type") →
            headersGet (getStreamingCgiResponse chunks).headers "Content-Type" =
              some "application/octet-stream")) := by
  refine ⟨?_, ?_, ?_, ?_, ?_, ?_⟩
  · unfold getCgiResponse
    by_cases h : (parseCgiResponse stdout).headers.length = 0
    · rw [if_pos h]
      show (headersGet (batchFallbackHeaders _ _) "Content-Type").isSome = true
      rw [batchFallbackHeaders_ct]
      rfl
    · rw [if_neg h]
      exact batchFoundHeaders_ct_isSome _ _ _ _
  · rcases hsl : streamHeadLoop chunks [] (-1) with ⟨acc, sep, rest⟩
    rw [getStreamingCgiResponse_eq chunks acc sep rest hsl]
    by_cases hneg : sep < 0
    · rw [if_pos hneg]
      show (headersGet (headersSet [] "Content-Type" "application/octet-stream")
        "Content-Type").isSome = true
      rw [headersGet_headersSet, if_pos rfl]
      rfl
    · rw [if_neg hneg]
      exact setCgiHeaders_ct_isSome _ _
  · intro hne hnoct
    have hlen : ¬((parseCgiResponse stdout).headers.length = 0) := by
      simpa [List.length_eq_zero] using hne
    unfold getCgiResponse
    rw [if_neg hlen]
    show headersGet (batchFoundHeaders _ _ _ _) "Content-Type" = _
    rw [batchFoundHeaders_ct]
    exact setCgiHeaders_ct_default _ hnoct
  · intro hhd hbody
    have hlen : (parseCgiResponse stdout).headers.length = 0 := by simp [hhd]
    have hpos : 0 < (parseCgiResponse stdout).body.length := List.length_pos.2 hbody
    unfold getCgiResponse
    rw [if_pos hlen]
    show headersGet (batchFallbackHeaders _ _) "Content-Type" = _
    rw [batchFallbackHeaders_ct]
    simp [hpos]
  · intro hhd hbody
    have hlen : (parseCgiResponse stdout).headers.length = 0 := by simp [hhd]
    unfold getCgiResponse
    rw [if_pos hlen]
    show headersGet (batchFallbackHeaders _ _) "Content-Type" = _
    rw [batchFallbackHeaders_ct]
    simp [hbody]
  · intro acc sep rest hsl
    constructor
    · intro hneg
      rw [getStreamingCgiResponse_eq chunks acc sep rest hsl, if_pos hneg]
      show headersGet (headersSet [] "Content-Type" "application/octet-stream")
        "Content-Type" = _
      rw [headersGet_headersSet, if_pos rfl]
    · intro hpos hnoct
      rw [getStreamingCgiResponse_eq chunks acc sep rest hsl, if_neg (by omega)]
      exact setCgiHeaders_ct_default _ hnoct

/-- C4 counterexample: with empty stdout (malformed, empty body) the batch
fallback sets `Content-Type: text/plain; charset=utf-8` even though the
child supplied no `Content-Type`, so "always `application/octet-stream`
when the child did not supply one" is false as stated. -/
theorem content_type_always_set_counterexample :
    (parseCgiResponse []).headers = []
    ∧ headersGet (getCgiResponse [] [] 0).headers "Content-Type" =
        some "text/plain; charset=utf-8"
    ∧ some "text/plain; charset=utf-8" ≠
        (some "application/octet-stream" : Option String) := by
  refine ⟨by decide, by decide, by decide⟩

theorem content_type_always_set_witness :
    ((parseCgiResponse (encodeString "HTTP/1.1 200\nX-A: 1\n\nhi")).headers ≠ []
      ∧ headersGet (getCgiResponse (encodeString "HTTP/1.1 200\nX-A: 1\n\nhi") [] 0).headers
          "Content-Type" = some "application/octet-stream")
    ∧ ((parseCgiResponse (encodeString "raw")).headers = []
      ∧ headersGet (getCgiResponse (encodeString "raw") [] 0).headers "Content-Type" =
          some "application/octet-stream")
    ∧ (headersGet (getStreamingCgiResponse [[104]]).headers "Content-Type").isSome = true := by
  refine ⟨⟨by decide, ?_⟩, ⟨by decide, ?_⟩, ?_⟩
  · exact (content_type_always_set (encodeString "HTTP/1.1 200\nX-A: 1\n\nhi") [] 0 []).2.2.1
      (by decide) (by decide)
  · exact (content_type_always_set (encodeString "raw") [] 0 []).2.2.2.1
      (by decide) (by decide)
  · exact (content_type_always_set [] [] 0 [[104]]).2.1

/-! ## Streaming passthrough (C8) -/

/-- C8: whenever the head-scanning loop ends without a boundary (stream
end, 16 KiB cap exceeded, or bad prologue — all leave a negative scanner
result), the streaming responder emits a 200 with
`Content-Type: application/octet-stream` whose body bytes are exactly the
accumulated bytes followed by all remaining chunks of the live stream. -/
theorem streaming_no_boundary_passthrough (chunks : List (List Nat))
    (acc : List Nat) (sep : Int) (rest : List (List Nat))
    (h : streamHeadLoop chunks [] (-1) = (acc, sep, rest)) (hsep : sep < 0) :
    (getStreamingCgiResponse chunks).status = 200
    ∧ headersGet (getStreamingCgiResponse chunks).headers "Content-Type" =
        some "application/octet-stream"
    ∧ (getStreamingCgiResponse chunks).bodyChunks.flatten = acc ++ rest.flatten := by
  rw [getStreamingCgiResponse_eq chunks acc sep rest h, if_pos hsep]
  refine ⟨rfl, ?_, ?_⟩
  · show headersGet (headersSet [] "Content-Type" "application/octet-stream")
      "Content-Type" = _
    rw [headersGet_headersSet, if_pos rfl]
  · exact getPrefixedStream_flatten acc rest

theorem streaming_no_boundary_passthrough_witness :
    streamHeadLoop [[104, 105], [], [33]] [] (-1) = ([104, 105, 33], -1, [])
    ∧ ((-1 : Int) < 0)
    ∧ ((getStreamingCgiResponse [[104, 105], [], [33]]).status = 200
      ∧ headersGet (getStreamingCgiResponse [[104, 105], [], [33]]).headers "Content-Type" =
          some "application/octet-stream"
      ∧ (getStreamingCgiResponse [[104, 105], [], [33]]).bodyChunks.flatten =
          [104, 105, 33] ++ ([] : List (List Nat)).flatten) := by
  refine ⟨by decide, by decide,
    streaming_no_boundary_passthrough [[104, 105], [], [33]] [104, 105, 33] (-1) []
      (by decide) (by decide)⟩

/-! ## Environment claims (C1, C3, C9) -/

/-- C1 (amended): for every request and options, the environment handed to
the spawned process contains each of the 13 standard names the builder's
object literal sets, always with a string value (possibly empty).  (The
remaining RFC 3875 names — `AUTH_TYPE`, `REMOTE_IDENT`, `REMOTE_USER`, and
`CONTENT_TYPE`/`CONTENT_LENGTH` absent the matching request header — are
NOT always present; see the counterexample.) -/
theorem standard_env_present (request : CgiRequest) (options : CgiOptions)
    (name : String) (h : name ∈ standardComputedEnvNames) :
    (mapGet (spawnEnv request options) name).isSome = true := by
  have hbuild : (mapGet (buildCgiEnv request options) name).isSome = true :=
    buildCgiEnv_standard_isSome request options name h
  rw [spawnEnv, objFromEntries_get, List.reverse_append, mapGet_append]
  have hmem : name ∈ mapKeys (buildCgiEnv request options).reverse := by
    rw [mapKeys, List.map_reverse, List.mem_reverse, ← mapKeys]
    exact (mapGet_isSome_iff _ _).1 hbuild
  obtain ⟨v, hv⟩ := Option.isSome_iff_exists.1 ((mapGet_isSome_iff _ _).2 hmem)
  rw [hv]
  rfl

/-- A minimal concrete request (no headers) used for concrete evaluations. -/
def sampleRequest : CgiRequest :=
  { method := "GET", urlProtocol := "http:", pathname := "/p", search := "",
    headers := [] }

/-- C1 counterexample: on a plain GET request with default options, the
RFC 3875 standard name `AUTH_TYPE` (likewise `REMOTE_IDENT`, `REMOTE_USER`,
`CONTENT_TYPE`, `CONTENT_LENGTH`) is absent from the spawned environment. -/
theorem standard_env_present_counterexample :
    mapGet (spawnEnv sampleRequest defaultOptions) "AUTH_TYPE" = none
    ∧ mapGet (spawnEnv sampleRequest defaultOptions) "REMOTE_IDENT" = none
    ∧ mapGet (spawnEnv sampleRequest defaultOptions) "REMOTE_USER" = none
    ∧ mapGet (spawnEnv sampleRequest defaultOptions) "CONTENT_TYPE" = none
    ∧ mapGet (spawnEnv sampleRequest defaultOptions) "CONTENT_LENGTH" = none := by
  refine ⟨?_, ?_, ?_, ?_, ?_⟩ <;> decide

theorem standard_env_present_witness :
    ("REQUEST_METHOD" ∈ standardComputedEnvNames)
    ∧ (mapGet (spawnEnv sampleRequest defaultOptions) "REQUEST_METHOD").isSome = true := by
  exact ⟨by decide, standard_env_present sampleRequest defaultOptions "REQUEST_METHOD" (by decide)⟩

/-- C9: any key computed by the environment builder wins over a
caller-supplied `options.env` entry of the same name in the environment
handed to the spawned process (`{ ...options.env, ...env }`). -/
theorem computed_env_precedence (request : CgiRequest) (options : CgiOptions) (k : String)
    (h1 : (mapGet options.env k).isSome = true)
    (h2 : (mapGet (buildCgiEnv request options) k).isSome = true) :
    mapGet (spawnEnv request options) k = mapGet (buildCgiEnv request options) k := by
  rw [spawnEnv, objFromEntries_get, List.reverse_append, mapGet_append]
  rw [mapGet_reverse_of_nodup _ _ (buildCgiEnv_nodup request options)]
  obtain ⟨v, hv⟩ := Option.isSome_iff_exists.1 h2
  rw [hv]

theorem computed_env_precedence_witness :
    (mapGet [("REQUEST_METHOD", "HACK")] "REQUEST_METHOD").isSome = true
    ∧ (mapGet (buildCgiEnv sampleRequest { env := [("REQUEST_METHOD", "HACK")] })
        "REQUEST_METHOD").isSome = true
    ∧ mapGet (spawnEnv sampleRequest { env := [("REQUEST_METHOD", "HACK")] })
        "REQUEST_METHOD" =
      mapGet (buildCgiEnv sampleRequest { env := [("REQUEST_METHOD", "HACK")] })
        "REQUEST_METHOD"
    ∧ mapGet (spawnEnv sampleRequest { env := [("REQUEST_METHOD", "HACK")] })
        "REQUEST_METHOD" = some "GET" := by
  refine ⟨by decide, by decide,
    computed_env_precedence sampleRequest { env := [("REQUEST_METHOD", "HACK")] }
      "REQUEST_METHOD" (by decide) (by decide),
    by decide⟩

/-- The request exhibiting the header-name translation defect: one inbound
header whose name contains two dashes. -/
def dashRequest : CgiRequest :=
  { method := "GET", urlProtocol := "http:", pathname := "/", search := "",
    headers := [("x-custom-header", "v")] }

/-- C3 (code evaluation at the failing input): `toUpperCase().replace("-",
"_")` replaces only the first dash, so the inbound header
`x-custom-header` becomes the variable `HTTP_X_CUSTOM-HEADER`, and the
RFC 3875 name `HTTP_X_CUSTOM_HEADER` is absent; `Content-Type` (single
dash) still maps to `CONTENT_TYPE` correctly. -/
theorem header_env_name_first_dash_only :
    headerEnvName "x-custom-header" = "X_CUSTOM-HEADER"
    ∧ mapGet (buildCgiEnv dashRequest defaultOptions) "HTTP_X_CUSTOM-HEADER" = some "v"
    ∧ mapGet (buildCgiEnv dashRequest defaultOptions) "HTTP_X_CUSTOM_HEADER" = none
    ∧ headerEnvName "content-type" = "CONTENT_TYPE" := by
  refine ⟨by decide, by decide, by decide, by decide⟩

theorem status_header_semantics_witness :
    lowerStr "STATUS" = "status"
    ∧ mapGet (parseCgiHead (encodeString "Status: 301 a\nStatus: 404 b\nX-B: 1")).1
        "STATUS" = none
    ∧ (parseCgiHead (encodeString "Status: 301 a\nStatus: 404 b\nX-B: 1")).2 = 404
    ∧ (parseCgiHead (encodeString "X-B: 1")).2 = 200 := by
  refine ⟨by decide,
    (status_header_semantics (encodeString "Status: 301 a\nStatus: 404 b\nX-B: 1") "STATUS"
      (by decide)).1,
    by decide, by decide⟩

theorem duplicate_header_semantics_witness :
    (parseCgiHead (mkTwoHeaderBlock "X-A" "1" "x-a" "2")).1 = [("X-A", "1"), ("x-a", "2")]
    ∧ headersGet (setCgiHeaders [] [("X-A", "1"), ("x-a", "2")]) "X-A" = some "2"
    ∧ (parseCgiHead (mkTwoHeaderBlock "X-A" "1" "X-A" "2")).1 = [("X-A", "1, 2")] := by
  have h := duplicate_header_semantics "X-A" "x-a" "1" "2"
    (by decide) (by decide) (by decide) (by decide) (by decide)
    (by decide) (by decide) (by decide) (by decide) (by decide)
    (by decide) (by decide) (by decide)
    (by decide) (by decide) (by decide)
    (by decide) (by decide)
  have h2 := duplicate_header_semantics "X-A" "X-A" "1" "2"
    (by decide) (by decide) (by decide) (by decide) (by decide)
    (by decide) (by decide) (by decide) (by decide) (by decide)
    (by decide) (by decide) (by decide)
    (by decide) (by decide) (by decide)
    (by decide) (by decide)
  refine ⟨?_, h.2 (by decide) (by decide), ?_⟩
  · have h1 := h.1
    rw [if_neg (by decide)] at h1
    exact h1
  · have h3 := h2.1
    rw [if_pos rfl] at h3
    exact h3
